import Mathlib

/-!
Verification of the deterministic shape-layout engine of the Crunched
PowerPoint add-in (`src/taskpane/taskpane.ts`): the functions
`alignShapes` (alignment of the selected shapes) and
`arrangeShapesInOrder` (placement of slide shapes in a caller-given
order).  JavaScript numbers are modelled as rationals, the mutable
array of shape objects as a `List Shape` updated at indices, and the
`Map`-based id lookup as a search returning the index of the last
shape carrying the id (later `Map.set` calls overwrite earlier ones).
-/

namespace Crunched

/-- A slide shape as loaded by the add-in: `{id, left, top, width, height}`. -/
structure Shape where
  id : String
  left : ℚ
  top : ℚ
  width : ℚ
  height : ℚ
deriving DecidableEq, Repr

/-- `const slideWidth = 960` (taskpane.ts). -/
def slideWidth : ℚ := 960

/-- `const slideHeight = 540` (taskpane.ts). -/
def slideHeight : ℚ := 540

/-- `const margin = 40` (taskpane.ts). -/
def margin : ℚ := 40

/-- `shapes.reduce((sum, s) => sum + s.left + s.width / 2, 0)`. -/
def sumCenterX (l : List Shape) : ℚ :=
  l.foldl (fun sum s => sum + s.left + s.width / 2) 0

/-- `shapes.reduce((sum, s) => sum + s.top + s.height / 2, 0)`. -/
def sumCenterY (l : List Shape) : ℚ :=
  l.foldl (fun sum s => sum + s.top + s.height / 2) 0

/-- `shapes.reduce((sum, s) => sum + s.width, 0)`. -/
def totalWidth (l : List Shape) : ℚ :=
  l.foldl (fun sum s => sum + s.width) 0

/-- `shapes.reduce((sum, s) => sum + s.height, 0)`. -/
def totalHeight (l : List Shape) : ℚ :=
  l.foldl (fun sum s => sum + s.height) 0

/-- Average x-center (`avgCenterX` in the source). -/
def avgCenterX (l : List Shape) : ℚ := sumCenterX l / l.length

/-- Average y-center (`avgCenterY` in the source). -/
def avgCenterY (l : List Shape) : ℚ := sumCenterY l / l.length

/-- `left` of the shape stored at index `i` (0 if out of range). -/
def leftAt (st : List Shape) (i : ℕ) : ℚ := ((st[i]?).map Shape.left).getD 0

/-- `top` of the shape stored at index `i` (0 if out of range). -/
def topAt (st : List Shape) (i : ℕ) : ℚ := ((st[i]?).map Shape.top).getD 0

/-- `width` of the shape stored at index `i` (0 if out of range). -/
def widthAt (st : List Shape) (i : ℕ) : ℚ := ((st[i]?).map Shape.width).getD 0

/-- `height` of the shape stored at index `i` (0 if out of range). -/
def heightAt (st : List Shape) (i : ℕ) : ℚ := ((st[i]?).map Shape.height).getD 0

/-- `[...shapes].sort((a, b) => a.left - b.left)`: JavaScript's sort is
stable, so it orders the array by `left` with ties broken by original
position.  We model it on indices: the list `0, …, n-1` sorted by the
lexicographic key (`left`, original index). -/
def sortIdxByLeft (shapes : List Shape) : List ℕ :=
  (List.range shapes.length).mergeSort fun i j =>
    decide (leftAt shapes i < leftAt shapes j ∨
      (leftAt shapes i = leftAt shapes j ∧ i ≤ j))

/-- `[...shapes].sort((a, b) => a.top - b.top)` on indices, as above. -/
def sortIdxByTop (shapes : List Shape) : List ℕ :=
  (List.range shapes.length).mergeSort fun i j =>
    decide (topAt shapes i < topAt shapes j ∨
      (topAt shapes i = topAt shapes j ∧ i ≤ j))

/-- The placement loop of `horizontal_distribute` in `alignShapes`:
`for (const shape of sorted) { shape.left = currentLeft; currentLeft += shape.width + gap; }`
iterated over the (index-coded) sorted shape references. -/
def placeH (gap : ℚ) : List ℕ → List Shape → ℚ → List Shape
  | [], st, _ => st
  | i :: rest, st, cur =>
    match st[i]? with
    | none => placeH gap rest st cur
    | some s => placeH gap rest (st.set i { s with left := cur }) (cur + s.width + gap)

/-- The placement loop of `vertical_distribute` in `alignShapes`:
`for (const shape of sorted) { shape.top = currentTop; currentTop += shape.height + gap; }`. -/
def placeV (gap : ℚ) : List ℕ → List Shape → ℚ → List Shape
  | [], st, _ => st
  | i :: rest, st, cur =>
    match st[i]? with
    | none => placeV gap rest st cur
    | some s => placeV gap rest (st.set i { s with top := cur }) (cur + s.height + gap)

/-- `alignShapes(alignmentType)` of taskpane.ts, applied to the snapshot
of the selected shapes.  Guard: fewer than 2 shapes is a no-op. -/
def alignShapes (alignmentType : String) (shapes : List Shape) : List Shape :=
  if shapes.length < 2 then shapes
  else if alignmentType = "horizontal_center" then
    let avg := avgCenterX shapes
    shapes.map fun s => { s with left := avg - s.width / 2 }
  else if alignmentType = "vertical_center" then
    let avg := avgCenterY shapes
    shapes.map fun s => { s with top := avg - s.height / 2 }
  else if alignmentType = "horizontal_distribute" then
    let availableWidth := slideWidth - 2 * margin
    let gap := (availableWidth - totalWidth shapes) / ((shapes.length : ℚ) - 1)
    placeH gap (sortIdxByLeft shapes) shapes margin
  else if alignmentType = "vertical_distribute" then
    let availableHeight := slideHeight - 2 * margin
    let gap := (availableHeight - totalHeight shapes) / ((shapes.length : ℚ) - 1)
    placeV gap (sortIdxByTop shapes) shapes margin
  else shapes

/-- Accumulator for the construction of `shapeMap`
(`for (const shape of allShapes.items) shapeMap.set(shape.id, shape)`):
a later `set` with the same id overwrites an earlier one, so lookup
returns the index of the last shape with the given id. -/
def mapGetAux (id0 : String) : List Shape → ℕ → Option ℕ → Option ℕ
  | [], _, acc => acc
  | s :: rest, i, acc => mapGetAux id0 rest (i + 1) (if s.id = id0 then some i else acc)

/-- `shapeMap.get(id)`, as the index of the shape it returns. -/
def mapGet (shapes : List Shape) (id0 : String) : Option ℕ :=
  mapGetAux id0 shapes 0 none

/-- The `orderedShapes` construction: each id of `shapeIds` is looked up
in `shapeMap`; misses are skipped (with a console warning). -/
def resolveOrder (shapes : List Shape) (shapeIds : List String) : List ℕ :=
  shapeIds.filterMap (mapGet shapes)

/-- The placement loop of `horizontal_distribute` in `arrangeShapesInOrder`:
`shape.left = currentLeft; shape.top = avgCenterY - shape.height / 2; currentLeft += shape.width + gap;`. -/
def placeOrdH (gap avgY : ℚ) : List ℕ → List Shape → ℚ → List Shape
  | [], st, _ => st
  | i :: rest, st, cur =>
    match st[i]? with
    | none => placeOrdH gap avgY rest st cur
    | some s =>
        placeOrdH gap avgY rest
          (st.set i { s with left := cur, top := avgY - s.height / 2 })
          (cur + s.width + gap)

/-- The placement loop of `vertical_distribute` in `arrangeShapesInOrder`:
`shape.top = currentTop; shape.left = avgCenterX - shape.width / 2; currentTop += shape.height + gap;`. -/
def placeOrdV (gap avgX : ℚ) : List ℕ → List Shape → ℚ → List Shape
  | [], st, _ => st
  | i :: rest, st, cur =>
    match st[i]? with
    | none => placeOrdV gap avgX rest st cur
    | some s =>
        placeOrdV gap avgX rest
          (st.set i { s with top := cur, left := avgX - s.width / 2 })
          (cur + s.height + gap)

/-- The `horizontal_center` loop of `arrangeShapesInOrder`:
`shape.left = avgCenterX - shape.width / 2` over the ordered shapes. -/
def setLeftCenterAll (avgX : ℚ) : List ℕ → List Shape → List Shape
  | [], st => st
  | i :: rest, st =>
    match st[i]? with
    | none => setLeftCenterAll avgX rest st
    | some s => setLeftCenterAll avgX rest (st.set i { s with left := avgX - s.width / 2 })

/-- The `vertical_center` loop of `arrangeShapesInOrder`:
`shape.top = avgCenterY - shape.height / 2` over the ordered shapes. -/
def setTopCenterAll (avgY : ℚ) : List ℕ → List Shape → List Shape
  | [], st => st
  | i :: rest, st =>
    match st[i]? with
    | none => setTopCenterAll avgY rest st
    | some s => setTopCenterAll avgY rest (st.set i { s with top := avgY - s.height / 2 })

/-- `arrangeShapesInOrder(shapeIds, alignment)` of taskpane.ts, applied
to the snapshot of all shapes on the slide.  The ids are resolved
through `shapeMap` (misses skipped), fewer than 2 resolved shapes is a
no-op, `avgCenterY` is computed over the resolved ordered shapes before
any mutation, and the mode branches follow the source order. -/
def arrangeShapesInOrder (shapeIds : List String) (alignment : String)
    (allShapes : List Shape) : List Shape :=
  let idxs := resolveOrder allShapes shapeIds
  let ordered := idxs.filterMap fun i => allShapes[i]?
  if ordered.length < 2 then allShapes
  else
    let avgY := avgCenterY ordered
    if alignment = "horizontal_distribute" then
      let availableWidth := slideWidth - 2 * margin
      let gap := (availableWidth - totalWidth ordered) / ((ordered.length : ℚ) - 1)
      placeOrdH gap avgY idxs allShapes margin
    else if alignment = "vertical_distribute" then
      let availableHeight := slideHeight - 2 * margin
      let gap := (availableHeight - totalHeight ordered) / ((ordered.length : ℚ) - 1)
      let avgX := avgCenterX ordered
      placeOrdV gap avgX idxs allShapes margin
    else if alignment = "horizontal_center" then
      let avgX := avgCenterX ordered
      setLeftCenterAll avgX idxs allShapes
    else if alignment = "vertical_center" then
      setTopCenterAll avgY idxs allShapes
    else allShapes

/-- Specification-side arithmetic mean of the horizontal centers. -/
def meanCenterX (l : List Shape) : ℚ :=
  ((l.map fun s => s.left + s.width / 2).sum) / l.length

/-- Specification-side arithmetic mean of the vertical centers. -/
def meanCenterY (l : List Shape) : ℚ :=
  ((l.map fun s => s.top + s.height / 2).sum) / l.length

/-- Running left edge of the distribute loops: starting from `cur`, the
value of `currentLeft` when the `k`-th listed shape is placed. -/
def accLeftFrom (st : List Shape) (gap : ℚ) : ℚ → List ℕ → ℕ → ℚ
  | cur, _, 0 => cur
  | cur, [], _ + 1 => cur
  | cur, i :: rest, k + 1 => accLeftFrom st gap (cur + widthAt st i + gap) rest k

/-- Running top edge of the vertical distribute loops. -/
def accTopFrom (st : List Shape) (gap : ℚ) : ℚ → List ℕ → ℕ → ℚ
  | cur, _, 0 => cur
  | cur, [], _ + 1 => cur
  | cur, i :: rest, k + 1 => accTopFrom st gap (cur + heightAt st i + gap) rest k

theorem foldl_add_map (f : Shape → ℚ) :
    ∀ (l : List Shape) (a : ℚ), l.foldl (fun acc s => acc + f s) a = a + (l.map f).sum
  | [], a => by simp
  | s :: rest, a => by
      simp only [List.foldl_cons, List.map_cons, List.sum_cons]
      rw [foldl_add_map f rest (a + f s)]
      ring

theorem sumCenterX_eq (l : List Shape) :
    sumCenterX l = (l.map fun s => s.left + s.width / 2).sum := by
  have h : (fun (acc : ℚ) (s : Shape) => acc + s.left + s.width / 2)
      = fun (acc : ℚ) (s : Shape) => acc + (s.left + s.width / 2) := by
    funext acc s
    ring
  rw [sumCenterX, h, foldl_add_map, zero_add]

theorem sumCenterY_eq (l : List Shape) :
    sumCenterY l = (l.map fun s => s.top + s.height / 2).sum := by
  have h : (fun (acc : ℚ) (s : Shape) => acc + s.top + s.height / 2)
      = fun (acc : ℚ) (s : Shape) => acc + (s.top + s.height / 2) := by
    funext acc s
    ring
  rw [sumCenterY, h, foldl_add_map, zero_add]

theorem totalWidth_eq (l : List Shape) : totalWidth l = (l.map Shape.width).sum := by
  rw [totalWidth]
  have h := foldl_add_map Shape.width l 0
  simpa using h

theorem totalHeight_eq (l : List Shape) : totalHeight l = (l.map Shape.height).sum := by
  rw [totalHeight]
  have h := foldl_add_map Shape.height l 0
  simpa using h

theorem avgCenterX_eq_mean (l : List Shape) : avgCenterX l = meanCenterX l := by
  rw [avgCenterX, meanCenterX, sumCenterX_eq]

theorem avgCenterY_eq_mean (l : List Shape) : avgCenterY l = meanCenterY l := by
  rw [avgCenterY, meanCenterY, sumCenterY_eq]

theorem mapGetAux_lt (id0 : String) :
    ∀ (l : List Shape) (i : ℕ) (acc : Option ℕ),
      (∀ j, acc = some j → j < i) →
      ∀ j, mapGetAux id0 l i acc = some j → j < i + l.length
  | [], i, acc, hacc, j, hj => by
      have := hacc j hj
      simpa using Nat.lt_of_lt_of_le this (Nat.le_add_right i 0)
  | s :: rest, i, acc, hacc, j, hj => by
      rw [mapGetAux] at hj
      have hstep : ∀ j', (if s.id = id0 then some i else acc) = some j' → j' < i + 1 := by
        intro j' hj'
        by_cases hid : s.id = id0
        · rw [if_pos hid] at hj'
          have := Option.some.inj hj'
          omega
        · rw [if_neg hid] at hj'
          exact Nat.lt_succ_of_lt (hacc j' hj')
      have := mapGetAux_lt id0 rest (i + 1) _ hstep j hj
      simpa [List.length_cons] using Nat.lt_of_lt_of_le this (by omega)

theorem mapGet_lt {shapes : List Shape} {id0 : String} {j : ℕ}
    (h : mapGet shapes id0 = some j) : j < shapes.length := by
  have := mapGetAux_lt id0 shapes 0 none (by intro j' hj'; cases hj') j h
  simpa using this

theorem resolveOrder_lt {shapes : List Shape} {ids : List String} {i : ℕ}
    (h : i ∈ resolveOrder shapes ids) : i < shapes.length := by
  rw [resolveOrder, List.mem_filterMap] at h
  obtain ⟨id0, _, hid⟩ := h
  exact mapGet_lt hid

theorem filterMap_getElem?_length :
    ∀ (idxs : List ℕ) (st : List Shape), (∀ i ∈ idxs, i < st.length) →
      (idxs.filterMap fun i => st[i]?).length = idxs.length
  | [], st, _ => by simp
  | i :: rest, st, h => by
      have hi : i < st.length := h i (List.mem_cons_self i rest)
      have hrest : ∀ j ∈ rest, j < st.length := fun j hj => h j (List.mem_cons_of_mem i hj)
      rw [List.filterMap_cons]
      rw [List.getElem?_eq_getElem hi]
      simp only [List.length_cons]
      rw [filterMap_getElem?_length rest st hrest]

theorem filterMap_getElem?_range :
    ∀ (st : List Shape), ((List.range st.length).filterMap fun i => st[i]?) = st
  | [] => by simp
  | s :: rest => by
      rw [List.length_cons, List.range_succ_eq_map, List.filterMap_cons]
      simp only [List.getElem?_cons_zero, List.filterMap_map]
      have h : ((fun i => (s :: rest)[i]?) ∘ Nat.succ) = fun i => rest[i]? := by
        funext i
        simp
      rw [h, filterMap_getElem?_range rest]

theorem map_getElem?_set {β : Type} (f : Shape → β) (t : Shape) {st : List Shape} {i : ℕ}
    {s : Shape} (hsi : st[i]? = some s) (hf : f t = f s) (j : ℕ) :
    ((st.set i t)[j]?).map f = (st[j]?).map f := by
  rw [List.getElem?_set]
  by_cases hij : i = j
  · subst hij
    have hlt : i < st.length := (List.getElem?_eq_some.mp hsi).1
    rw [if_pos rfl, if_pos hlt, hsi]
    simp [hf]
  · rw [if_neg hij]

theorem widthAt_set {st : List Shape} {i : ℕ} {s : Shape} (t : Shape)
    (hsi : st[i]? = some s) (hw : t.width = s.width) (j : ℕ) :
    widthAt (st.set i t) j = widthAt st j := by
  unfold widthAt
  rw [map_getElem?_set Shape.width t hsi hw j]

theorem heightAt_set {st : List Shape} {i : ℕ} {s : Shape} (t : Shape)
    (hsi : st[i]? = some s) (hh : t.height = s.height) (j : ℕ) :
    heightAt (st.set i t) j = heightAt st j := by
  unfold heightAt
  rw [map_getElem?_set Shape.height t hsi hh j]

theorem accLeftFrom_zero (st : List Shape) (gap cur : ℚ) (idxs : List ℕ) :
    accLeftFrom st gap cur idxs 0 = cur := by
  cases idxs <;> rfl

theorem accLeftFrom_nil (st : List Shape) (gap cur : ℚ) (k : ℕ) :
    accLeftFrom st gap cur [] k = cur := by
  cases k <;> rfl

theorem accLeftFrom_cons_succ (st : List Shape) (gap cur : ℚ) (i : ℕ) (rest : List ℕ) (k : ℕ) :
    accLeftFrom st gap cur (i :: rest) (k + 1) =
      accLeftFrom st gap (cur + widthAt st i + gap) rest k := rfl

theorem accTopFrom_zero (st : List Shape) (gap cur : ℚ) (idxs : List ℕ) :
    accTopFrom st gap cur idxs 0 = cur := by
  cases idxs <;> rfl

theorem accTopFrom_nil (st : List Shape) (gap cur : ℚ) (k : ℕ) :
    accTopFrom st gap cur [] k = cur := by
  cases k <;> rfl

theorem accTopFrom_cons_succ (st : List Shape) (gap cur : ℚ) (i : ℕ) (rest : List ℕ) (k : ℕ) :
    accTopFrom st gap cur (i :: rest) (k + 1) =
      accTopFrom st gap (cur + heightAt st i + gap) rest k := rfl

theorem accLeftFrom_congr {st₁ st₂ : List Shape} (gap : ℚ)
    (h : ∀ i, widthAt st₁ i = widthAt st₂ i) :
    ∀ (idxs : List ℕ) (cur : ℚ) (k : ℕ),
      accLeftFrom st₁ gap cur idxs k = accLeftFrom st₂ gap cur idxs k
  | idxs, cur, 0 => by rw [accLeftFrom_zero, accLeftFrom_zero]
  | [], cur, k + 1 => by rw [accLeftFrom_nil, accLeftFrom_nil]
  | i :: rest, cur, k + 1 => by
      rw [accLeftFrom_cons_succ, accLeftFrom_cons_succ, h i]
      exact accLeftFrom_congr gap h rest _ k

theorem accTopFrom_congr {st₁ st₂ : List Shape} (gap : ℚ)
    (h : ∀ i, heightAt st₁ i = heightAt st₂ i) :
    ∀ (idxs : List ℕ) (cur : ℚ) (k : ℕ),
      accTopFrom st₁ gap cur idxs k = accTopFrom st₂ gap cur idxs k
  | idxs, cur, 0 => by rw [accTopFrom_zero, accTopFrom_zero]
  | [], cur, k + 1 => by rw [accTopFrom_nil, accTopFrom_nil]
  | i :: rest, cur, k + 1 => by
      rw [accTopFrom_cons_succ, accTopFrom_cons_succ, h i]
      exact accTopFrom_congr gap h rest _ k

theorem accLeftFrom_succ (st : List Shape) (gap : ℚ) :
    ∀ (idxs : List ℕ) (cur : ℚ) (k : ℕ) (i : ℕ), idxs[k]? = some i →
      accLeftFrom st gap cur idxs (k + 1) = accLeftFrom st gap cur idxs k + widthAt st i + gap
  | [], cur, k, i, h => by simp at h
  | j :: rest, cur, 0, i, h => by
      have hji : j = i := by simpa using h
      subst hji
      rw [accLeftFrom_cons_succ, accLeftFrom_zero, accLeftFrom_zero]
  | j :: rest, cur, k + 1, i, h => by
      rw [List.getElem?_cons_succ] at h
      rw [accLeftFrom_cons_succ, accLeftFrom_cons_succ]
      exact accLeftFrom_succ st gap rest _ k i h

theorem placeH_length (gap : ℚ) :
    ∀ (idxs : List ℕ) (st : List Shape) (cur : ℚ), (placeH gap idxs st cur).length = st.length
  | [], st, cur => rfl
  | i :: rest, st, cur => by
      rw [placeH]
      cases hsi : st[i]?
      · exact placeH_length gap rest st cur
      · rw [placeH_length gap rest _ _, List.length_set]

theorem placeH_getElem?_not_mem (gap : ℚ) :
    ∀ (idxs : List ℕ) (st : List Shape) (cur : ℚ) {j : ℕ}, j ∉ idxs →
      (placeH gap idxs st cur)[j]? = st[j]?
  | [], st, cur, j, _ => rfl
  | i :: rest, st, cur, j, h => by
      have hji : i ≠ j := fun e => h (e ▸ List.mem_cons_self i rest)
      have hjr : j ∉ rest := fun e => h (List.mem_cons_of_mem i e)
      rw [placeH]
      cases hsi : st[i]?
      · exact placeH_getElem?_not_mem gap rest st cur hjr
      · rw [placeH_getElem?_not_mem gap rest _ _ hjr, List.getElem?_set, if_neg hji]

theorem placeH_fields (gap : ℚ) :
    ∀ (idxs : List ℕ) (st : List Shape) (cur : ℚ) (j : ℕ),
      ((placeH gap idxs st cur)[j]?).map Shape.top = (st[j]?).map Shape.top ∧
      ((placeH gap idxs st cur)[j]?).map Shape.width = (st[j]?).map Shape.width ∧
      ((placeH gap idxs st cur)[j]?).map Shape.height = (st[j]?).map Shape.height ∧
      ((placeH gap idxs st cur)[j]?).map Shape.id = (st[j]?).map Shape.id
  | [], st, cur, j => ⟨rfl, rfl, rfl, rfl⟩
  | i :: rest, st, cur, j => by
      rw [placeH]
      cases hsi : st[i]?
      · exact placeH_fields gap rest st cur j
      case some s =>
        obtain ⟨h1, h2, h3, h4⟩ :=
          placeH_fields gap rest (st.set i { s with left := cur }) (cur + s.width + gap) j
        exact ⟨by rw [h1, map_getElem?_set Shape.top { s with left := cur } hsi rfl j],
          by rw [h2, map_getElem?_set Shape.width { s with left := cur } hsi rfl j],
          by rw [h3, map_getElem?_set Shape.height { s with left := cur } hsi rfl j],
          by rw [h4, map_getElem?_set Shape.id { s with left := cur } hsi rfl j]⟩

theorem placeH_getElem?_pos (gap : ℚ) :
    ∀ (idxs : List ℕ) (st : List Shape) (cur : ℚ),
      idxs.Nodup → (∀ i ∈ idxs, i < st.length) →
      ∀ (k : ℕ) (i : ℕ), idxs[k]? = some i →
      (placeH gap idxs st cur)[i]? =
        (st[i]?).map fun s => { s with left := accLeftFrom st gap cur idxs k }
  | [], st, cur, _, _, k, i, h => by simp at h
  | j :: rest, st, cur, hN, hb, 0, i, h => by
      have hji : j = i := by simpa using h
      subst hji
      have hlt : j < st.length := hb j (List.mem_cons_self j rest)
      obtain ⟨s, hs⟩ : ∃ s, st[j]? = some s := ⟨st[j], List.getElem?_eq_getElem hlt⟩
      rw [placeH, hs]
      have hnotin : j ∉ rest := (List.nodup_cons.mp hN).1
      rw [placeH_getElem?_not_mem gap rest _ _ hnotin]
      rw [List.getElem?_set, if_pos rfl, if_pos hlt]
      rw [accLeftFrom_zero]
      rfl
  | j :: rest, st, cur, hN, hb, k + 1, i, h => by
      rw [List.getElem?_cons_succ] at h
      have hi_mem : i ∈ rest := by
        obtain ⟨hk, he⟩ := List.getElem?_eq_some.mp h
        exact he ▸ List.getElem_mem hk
      have hlt_j : j < st.length := hb j (List.mem_cons_self j rest)
      obtain ⟨s, hs⟩ : ∃ s, st[j]? = some s := ⟨st[j], List.getElem?_eq_getElem hlt_j⟩
      rw [placeH, hs]
      have hb' : ∀ x ∈ rest, x < (st.set j { s with left := cur }).length := by
        intro x hx
        rw [List.length_set]
        exact hb x (List.mem_cons_of_mem j hx)
      have hrec := placeH_getElem?_pos gap rest (st.set j { s with left := cur })
        (cur + s.width + gap) (List.nodup_cons.mp hN).2 hb' k i h
      rw [hrec]
      have hij : j ≠ i := fun e => (List.nodup_cons.mp hN).1 (e ▸ hi_mem)
      rw [List.getElem?_set, if_neg hij]
      have hcong := accLeftFrom_congr gap (widthAt_set { s with left := cur } hs rfl) rest
        (cur + s.width + gap) k
      rw [hcong]
      have hw : widthAt st j = s.width := by
        unfold widthAt
        rw [hs]
        rfl
      rw [accLeftFrom_cons_succ, hw]

theorem placeV_length (gap : ℚ) :
    ∀ (idxs : List ℕ) (st : List Shape) (cur : ℚ), (placeV gap idxs st cur).length = st.length
  | [], st, cur => rfl
  | i :: rest, st, cur => by
      rw [placeV]
      cases hsi : st[i]?
      · exact placeV_length gap rest st cur
      · rw [placeV_length gap rest _ _, List.length_set]

theorem placeV_fields (gap : ℚ) :
    ∀ (idxs : List ℕ) (st : List Shape) (cur : ℚ) (j : ℕ),
      ((placeV gap idxs st cur)[j]?).map Shape.left = (st[j]?).map Shape.left ∧
      ((placeV gap idxs st cur)[j]?).map Shape.width = (st[j]?).map Shape.width ∧
      ((placeV gap idxs st cur)[j]?).map Shape.height = (st[j]?).map Shape.height ∧
      ((placeV gap idxs st cur)[j]?).map Shape.id = (st[j]?).map Shape.id
  | [], st, cur, j => ⟨rfl, rfl, rfl, rfl⟩
  | i :: rest, st, cur, j => by
      rw [placeV]
      cases hsi : st[i]?
      · exact placeV_fields gap rest st cur j
      case some s =>
        obtain ⟨h1, h2, h3, h4⟩ :=
          placeV_fields gap rest (st.set i { s with top := cur }) (cur + s.height + gap) j
        exact ⟨by rw [h1, map_getElem?_set Shape.left { s with top := cur } hsi rfl j],
          by rw [h2, map_getElem?_set Shape.width { s with top := cur } hsi rfl j],
          by rw [h3, map_getElem?_set Shape.height { s with top := cur } hsi rfl j],
          by rw [h4, map_getElem?_set Shape.id { s with top := cur } hsi rfl j]⟩

theorem placeOrdH_length (gap avgY : ℚ) :
    ∀ (idxs : List ℕ) (st : List Shape) (cur : ℚ),
      (placeOrdH gap avgY idxs st cur).length = st.length
  | [], st, cur => rfl
  | i :: rest, st, cur => by
      rw [placeOrdH]
      cases hsi : st[i]?
      · exact placeOrdH_length gap avgY rest st cur
      · rw [placeOrdH_length gap avgY rest _ _, List.length_set]

theorem placeOrdH_getElem?_not_mem (gap avgY : ℚ) :
    ∀ (idxs : List ℕ) (st : List Shape) (cur : ℚ) {j : ℕ}, j ∉ idxs →
      (placeOrdH gap avgY idxs st cur)[j]? = st[j]?
  | [], st, cur, j, _ => rfl
  | i :: rest, st, cur, j, h => by
      have hji : i ≠ j := fun e => h (e ▸ List.mem_cons_self i rest)
      have hjr : j ∉ rest := fun e => h (List.mem_cons_of_mem i e)
      rw [placeOrdH]
      cases hsi : st[i]?
      · exact placeOrdH_getElem?_not_mem gap avgY rest st cur hjr
      · rw [placeOrdH_getElem?_not_mem gap avgY rest _ _ hjr, List.getElem?_set, if_neg hji]

theorem placeOrdH_fields (gap avgY : ℚ) :
    ∀ (idxs : List ℕ) (st : List Shape) (cur : ℚ) (j : ℕ),
      ((placeOrdH gap avgY idxs st cur)[j]?).map Shape.width = (st[j]?).map Shape.width ∧
      ((placeOrdH gap avgY idxs st cur)[j]?).map Shape.height = (st[j]?).map Shape.height ∧
      ((placeOrdH gap avgY idxs st cur)[j]?).map Shape.id = (st[j]?).map Shape.id
  | [], st, cur, j => ⟨rfl, rfl, rfl⟩
  | i :: rest, st, cur, j => by
      rw [placeOrdH]
      cases hsi : st[i]?
      · exact placeOrdH_fields gap avgY rest st cur j
      case some s =>
        obtain ⟨h2, h3, h4⟩ := placeOrdH_fields gap avgY rest
          (st.set i { s with left := cur, top := avgY - s.height / 2 }) (cur + s.width + gap) j
        exact ⟨by rw [h2, map_getElem?_set Shape.width
            { s with left := cur, top := avgY - s.height / 2 } hsi rfl j],
          by rw [h3, map_getElem?_set Shape.height
            { s with left := cur, top := avgY - s.height / 2 } hsi rfl j],
          by rw [h4, map_getElem?_set Shape.id
            { s with left := cur, top := avgY - s.height / 2 } hsi rfl j]⟩

theorem placeOrdH_getElem?_pos (gap avgY : ℚ) :
    ∀ (idxs : List ℕ) (st : List Shape) (cur : ℚ),
      idxs.Nodup → (∀ i ∈ idxs, i < st.length) →
      ∀ (k : ℕ) (i : ℕ), idxs[k]? = some i →
      (placeOrdH gap avgY idxs st cur)[i]? =
        (st[i]?).map fun s =>
          { s with left := accLeftFrom st gap cur idxs k, top := avgY - s.height / 2 }
  | [], st, cur, _, _, k, i, h => by simp at h
  | j :: rest, st, cur, hN, hb, 0, i, h => by
      have hji : j = i := by simpa using h
      subst hji
      have hlt : j < st.length := hb j (List.mem_cons_self j rest)
      obtain ⟨s, hs⟩ : ∃ s, st[j]? = some s := ⟨st[j], List.getElem?_eq_getElem hlt⟩
      rw [placeOrdH, hs]
      have hnotin : j ∉ rest := (List.nodup_cons.mp hN).1
      rw [placeOrdH_getElem?_not_mem gap avgY rest _ _ hnotin]
      rw [List.getElem?_set, if_pos rfl, if_pos hlt]
      rw [accLeftFrom_zero]
      rfl
  | j :: rest, st, cur, hN, hb, k + 1, i, h => by
      rw [List.getElem?_cons_succ] at h
      have hi_mem : i ∈ rest := by
        obtain ⟨hk, he⟩ := List.getElem?_eq_some.mp h
        exact he ▸ List.getElem_mem hk
      have hlt_j : j < st.length := hb j (List.mem_cons_self j rest)
      obtain ⟨s, hs⟩ : ∃ s, st[j]? = some s := ⟨st[j], List.getElem?_eq_getElem hlt_j⟩
      rw [placeOrdH, hs]
      have hb' : ∀ x ∈ rest,
          x < (st.set j { s with left := cur, top := avgY - s.height / 2 }).length := by
        intro x hx
        rw [List.length_set]
        exact hb x (List.mem_cons_of_mem j hx)
      have hrec := placeOrdH_getElem?_pos gap avgY rest
        (st.set j { s with left := cur, top := avgY - s.height / 2 })
        (cur + s.width + gap) (List.nodup_cons.mp hN).2 hb' k i h
      rw [hrec]
      have hij : j ≠ i := fun e => (List.nodup_cons.mp hN).1 (e ▸ hi_mem)
      rw [List.getElem?_set, if_neg hij]
      have hcong := accLeftFrom_congr gap
        (widthAt_set { s with left := cur, top := avgY - s.height / 2 } hs rfl) rest
        (cur + s.width + gap) k
      rw [hcong]
      have hw : widthAt st j = s.width := by
        unfold widthAt
        rw [hs]
        rfl
      rw [accLeftFrom_cons_succ, hw]

theorem placeOrdH_top_mem (gap avgY : ℚ) :
    ∀ (idxs : List ℕ) (st : List Shape) (cur : ℚ) {i : ℕ}, i ∈ idxs →
      ((placeOrdH gap avgY idxs st cur)[i]?).map Shape.top =
        (st[i]?).map fun s => avgY - s.height / 2
  | [], st, cur, i, h => absurd h (List.not_mem_nil i)
  | j :: rest, st, cur, i, h => by
      rw [placeOrdH]
      cases hs : st[j]?
      case none =>
        by_cases hir : i ∈ rest
        · exact placeOrdH_top_mem gap avgY rest st cur hir
        · have hij : i = j := by
            rcases List.mem_cons.mp h with h1 | h1
            · exact h1
            · exact absurd h1 hir
          subst hij
          rw [placeOrdH_getElem?_not_mem gap avgY rest _ _ hir, hs]
          rfl
      case some s =>
        by_cases hir : i ∈ rest
        · rw [placeOrdH_top_mem gap avgY rest _ _ hir,
            map_getElem?_set (fun t => avgY - t.height / 2)
              { s with left := cur, top := avgY - s.height / 2 } hs rfl i]
        · have hij : i = j := by
            rcases List.mem_cons.mp h with h1 | h1
            · exact h1
            · exact absurd h1 hir
          subst hij
          have hlt : i < st.length := (List.getElem?_eq_some.mp hs).1
          rw [placeOrdH_getElem?_not_mem gap avgY rest _ _ hir]
          rw [List.getElem?_set, if_pos rfl, if_pos hlt, hs]
          rfl

theorem placeOrdV_length (gap avgX : ℚ) :
    ∀ (idxs : List ℕ) (st : List Shape) (cur : ℚ),
      (placeOrdV gap avgX idxs st cur).length = st.length
  | [], st, cur => rfl
  | i :: rest, st, cur => by
      rw [placeOrdV]
      cases hsi : st[i]?
      · exact placeOrdV_length gap avgX rest st cur
      · rw [placeOrdV_length gap avgX rest _ _, List.length_set]

theorem placeOrdV_getElem?_not_mem (gap avgX : ℚ) :
    ∀ (idxs : List ℕ) (st : List Shape) (cur : ℚ) {j : ℕ}, j ∉ idxs →
      (placeOrdV gap avgX idxs st cur)[j]? = st[j]?
  | [], st, cur, j, _ => rfl
  | i :: rest, st, cur, j, h => by
      have hji : i ≠ j := fun e => h (e ▸ List.mem_cons_self i rest)
      have hjr : j ∉ rest := fun e => h (List.mem_cons_of_mem i e)
      rw [placeOrdV]
      cases hsi : st[i]?
      · exact placeOrdV_getElem?_not_mem gap avgX rest st cur hjr
      · rw [placeOrdV_getElem?_not_mem gap avgX rest _ _ hjr, List.getElem?_set, if_neg hji]

theorem placeOrdV_left_mem (gap avgX : ℚ) :
    ∀ (idxs : List ℕ) (st : List Shape) (cur : ℚ) {i : ℕ}, i ∈ idxs →
      ((placeOrdV gap avgX idxs st cur)[i]?).map Shape.left =
        (st[i]?).map fun s => avgX - s.width / 2
  | [], st, cur, i, h => absurd h (List.not_mem_nil i)
  | j :: rest, st, cur, i, h => by
      rw [placeOrdV]
      cases hs : st[j]?
      case none =>
        by_cases hir : i ∈ rest
        · exact placeOrdV_left_mem gap avgX rest st cur hir
        · have hij : i = j := by
            rcases List.mem_cons.mp h with h1 | h1
            · exact h1
            · exact absurd h1 hir
          subst hij
          rw [placeOrdV_getElem?_not_mem gap avgX rest _ _ hir, hs]
          rfl
      case some s =>
        by_cases hir : i ∈ rest
        · rw [placeOrdV_left_mem gap avgX rest _ _ hir,
            map_getElem?_set (fun t => avgX - t.width / 2)
              { s with top := cur, left := avgX - s.width / 2 } hs rfl i]
        · have hij : i = j := by
            rcases List.mem_cons.mp h with h1 | h1
            · exact h1
            · exact absurd h1 hir
          subst hij
          have hlt : i < st.length := (List.getElem?_eq_some.mp hs).1
          rw [placeOrdV_getElem?_not_mem gap avgX rest _ _ hir]
          rw [List.getElem?_set, if_pos rfl, if_pos hlt, hs]
          rfl

theorem setLeftCenterAll_length (avgX : ℚ) :
    ∀ (idxs : List ℕ) (st : List Shape), (setLeftCenterAll avgX idxs st).length = st.length
  | [], st => rfl
  | i :: rest, st => by
      rw [setLeftCenterAll]
      cases hsi : st[i]?
      · exact setLeftCenterAll_length avgX rest st
      · rw [setLeftCenterAll_length avgX rest _, List.length_set]

theorem setLeftCenterAll_getElem?_not_mem (avgX : ℚ) :
    ∀ (idxs : List ℕ) (st : List Shape) {j : ℕ}, j ∉ idxs →
      (setLeftCenterAll avgX idxs st)[j]? = st[j]?
  | [], st, j, _ => rfl
  | i :: rest, st, j, h => by
      have hji : i ≠ j := fun e => h (e ▸ List.mem_cons_self i rest)
      have hjr : j ∉ rest := fun e => h (List.mem_cons_of_mem i e)
      rw [setLeftCenterAll]
      cases hsi : st[i]?
      · exact setLeftCenterAll_getElem?_not_mem avgX rest st hjr
      · rw [setLeftCenterAll_getElem?_not_mem avgX rest _ hjr, List.getElem?_set, if_neg hji]

theorem setLeftCenterAll_getElem?_mem (avgX : ℚ) :
    ∀ (idxs : List ℕ) (st : List Shape) {i : ℕ}, i ∈ idxs →
      (setLeftCenterAll avgX idxs st)[i]? =
        (st[i]?).map fun s => { s with left := avgX - s.width / 2 }
  | [], st, i, h => absurd h (List.not_mem_nil i)
  | j :: rest, st, i, h => by
      rw [setLeftCenterAll]
      cases hs : st[j]?
      case none =>
        by_cases hir : i ∈ rest
        · exact setLeftCenterAll_getElem?_mem avgX rest st hir
        · have hij : i = j := by
            rcases List.mem_cons.mp h with h1 | h1
            · exact h1
            · exact absurd h1 hir
          subst hij
          rw [setLeftCenterAll_getElem?_not_mem avgX rest _ hir, hs]
          rfl
      case some s =>
        by_cases hir : i ∈ rest
        · rw [setLeftCenterAll_getElem?_mem avgX rest _ hir,
            map_getElem?_set (fun t => ({ t with left := avgX - t.width / 2 } : Shape))
              { s with left := avgX - s.width / 2 } hs rfl i]
        · have hij : i = j := by
            rcases List.mem_cons.mp h with h1 | h1
            · exact h1
            · exact absurd h1 hir
          subst hij
          have hlt : i < st.length := (List.getElem?_eq_some.mp hs).1
          rw [setLeftCenterAll_getElem?_not_mem avgX rest _ hir]
          rw [List.getElem?_set, if_pos rfl, if_pos hlt, hs]
          rfl

theorem setTopCenterAll_length (avgY : ℚ) :
    ∀ (idxs : List ℕ) (st : List Shape), (setTopCenterAll avgY idxs st).length = st.length
  | [], st => rfl
  | i :: rest, st => by
      rw [setTopCenterAll]
      cases hsi : st[i]?
      · exact setTopCenterAll_length avgY rest st
      · rw [setTopCenterAll_length avgY rest _, List.length_set]

theorem setTopCenterAll_getElem?_not_mem (avgY : ℚ) :
    ∀ (idxs : List ℕ) (st : List Shape) {j : ℕ}, j ∉ idxs →
      (setTopCenterAll avgY idxs st)[j]? = st[j]?
  | [], st, j, _ => rfl
  | i :: rest, st, j, h => by
      have hji : i ≠ j := fun e => h (e ▸ List.mem_cons_self i rest)
      have hjr : j ∉ rest := fun e => h (List.mem_cons_of_mem i e)
      rw [setTopCenterAll]
      cases hsi : st[i]?
      · exact setTopCenterAll_getElem?_not_mem avgY rest st hjr
      · rw [setTopCenterAll_getElem?_not_mem avgY rest _ hjr, List.getElem?_set, if_neg hji]

theorem setTopCenterAll_getElem?_mem (avgY : ℚ) :
    ∀ (idxs : List ℕ) (st : List Shape) {i : ℕ}, i ∈ idxs →
      (setTopCenterAll avgY idxs st)[i]? =
        (st[i]?).map fun s => { s with top := avgY - s.height / 2 }
  | [], st, i, h => absurd h (List.not_mem_nil i)
  | j :: rest, st, i, h => by
      rw [setTopCenterAll]
      cases hs : st[j]?
      case none =>
        by_cases hir : i ∈ rest
        · exact setTopCenterAll_getElem?_mem avgY rest st hir
        · have hij : i = j := by
            rcases List.mem_cons.mp h with h1 | h1
            · exact h1
            · exact absurd h1 hir
          subst hij
          rw [setTopCenterAll_getElem?_not_mem avgY rest _ hir, hs]
          rfl
      case some s =>
        by_cases hir : i ∈ rest
        · rw [setTopCenterAll_getElem?_mem avgY rest _ hir,
            map_getElem?_set (fun t => ({ t with top := avgY - t.height / 2 } : Shape))
              { s with top := avgY - s.height / 2 } hs rfl i]
        · have hij : i = j := by
            rcases List.mem_cons.mp h with h1 | h1
            · exact h1
            · exact absurd h1 hir
          subst hij
          have hlt : i < st.length := (List.getElem?_eq_some.mp hs).1
          rw [setTopCenterAll_getElem?_not_mem avgY rest _ hir]
          rw [List.getElem?_set, if_pos rfl, if_pos hlt, hs]
          rfl

theorem lexLe_trans (f : ℕ → ℚ) (a b c : ℕ)
    (h1 : f a < f b ∨ (f a = f b ∧ a ≤ b)) (h2 : f b < f c ∨ (f b = f c ∧ b ≤ c)) :
    f a < f c ∨ (f a = f c ∧ a ≤ c) := by
  rcases h1 with h1 | ⟨h1e, h1n⟩
  · rcases h2 with h2 | ⟨h2e, _⟩
    · exact Or.inl (lt_trans h1 h2)
    · exact Or.inl (h2e ▸ h1)
  · rcases h2 with h2 | ⟨h2e, h2n⟩
    · exact Or.inl (h1e ▸ h2)
    · exact Or.inr ⟨h1e.trans h2e, le_trans h1n h2n⟩

theorem lexLe_total (f : ℕ → ℚ) (a b : ℕ) :
    (f a < f b ∨ (f a = f b ∧ a ≤ b)) ∨ (f b < f a ∨ (f b = f a ∧ b ≤ a)) := by
  rcases lt_trichotomy (f a) (f b) with h | h | h
  · exact Or.inl (Or.inl h)
  · rcases Nat.le_total a b with hn | hn
    · exact Or.inl (Or.inr ⟨h, hn⟩)
    · exact Or.inr (Or.inr ⟨h.symm, hn⟩)
  · exact Or.inr (Or.inl h)

theorem sortIdxByLeft_perm (shapes : List Shape) :
    (sortIdxByLeft shapes).Perm (List.range shapes.length) :=
  List.mergeSort_perm _ _

theorem sortIdxByLeft_length (shapes : List Shape) :
    (sortIdxByLeft shapes).length = shapes.length := by
  rw [(sortIdxByLeft_perm shapes).length_eq, List.length_range]

theorem sortIdxByLeft_nodup (shapes : List Shape) : (sortIdxByLeft shapes).Nodup :=
  (sortIdxByLeft_perm shapes).symm.nodup (List.nodup_range _)

theorem sortIdxByLeft_mem_lt {shapes : List Shape} {i : ℕ} (h : i ∈ sortIdxByLeft shapes) :
    i < shapes.length :=
  List.mem_range.mp ((sortIdxByLeft_perm shapes).mem_iff.mp h)

theorem sortIdxByLeft_pairwise (shapes : List Shape) :
    (sortIdxByLeft shapes).Pairwise fun i j =>
      leftAt shapes i < leftAt shapes j ∨
        (leftAt shapes i = leftAt shapes j ∧ i ≤ j) := by
  have h := @List.sorted_mergeSort ℕ
    (fun i j => decide (leftAt shapes i < leftAt shapes j ∨
      (leftAt shapes i = leftAt shapes j ∧ i ≤ j)))
    (by
      intro a b c hab hbc
      simp only [decide_eq_true_eq] at hab hbc ⊢
      exact lexLe_trans (leftAt shapes) a b c hab hbc)
    (by
      intro a b
      simp only [Bool.or_eq_true, decide_eq_true_eq]
      exact lexLe_total (leftAt shapes) a b)
    (List.range shapes.length)
  exact h.imp fun hab => of_decide_eq_true hab

theorem sortIdxByLeft_pairwise_strict (shapes : List Shape) :
    (sortIdxByLeft shapes).Pairwise fun i j =>
      leftAt shapes i < leftAt shapes j ∨
        (leftAt shapes i = leftAt shapes j ∧ i < j) := by
  have h1 := sortIdxByLeft_pairwise shapes
  have h2 : (sortIdxByLeft shapes).Pairwise (· ≠ ·) := sortIdxByLeft_nodup shapes
  refine (h1.and h2).imp fun hab => ?_
  obtain ⟨hle, hne⟩ := hab
  rcases hle with hlt | ⟨heq, hn⟩
  · exact Or.inl hlt
  · exact Or.inr ⟨heq, lt_of_le_of_ne hn hne⟩

theorem alignShapes_short {mode : String} {shapes : List Shape} (h : shapes.length < 2) :
    alignShapes mode shapes = shapes := by
  rw [alignShapes, if_pos h]

theorem alignShapes_hc {shapes : List Shape} (h : ¬ shapes.length < 2) :
    alignShapes ("horizontal_center") shapes =
      shapes.map fun s => { s with left := avgCenterX shapes - s.width / 2 } := by
  rw [alignShapes, if_neg h, if_pos rfl]

theorem alignShapes_vc {shapes : List Shape} (h : ¬ shapes.length < 2) :
    alignShapes ("vertical_center") shapes =
      shapes.map fun s => { s with top := avgCenterY shapes - s.height / 2 } := by
  rw [alignShapes, if_neg h, if_neg (by decide), if_pos rfl]

theorem alignShapes_hd {shapes : List Shape} (h : ¬ shapes.length < 2) :
    alignShapes ("horizontal_distribute") shapes =
      placeH ((slideWidth - 2 * margin - totalWidth shapes) / ((shapes.length : ℚ) - 1))
        (sortIdxByLeft shapes) shapes margin := by
  rw [alignShapes, if_neg h, if_neg (by decide), if_neg (by decide), if_pos rfl]

theorem alignShapes_vd {shapes : List Shape} (h : ¬ shapes.length < 2) :
    alignShapes ("vertical_distribute") shapes =
      placeV ((slideHeight - 2 * margin - totalHeight shapes) / ((shapes.length : ℚ) - 1))
        (sortIdxByTop shapes) shapes margin := by
  rw [alignShapes, if_neg h, if_neg (by decide), if_neg (by decide), if_neg (by decide),
    if_pos rfl]

theorem alignShapes_unknown {mode : String} {shapes : List Shape}
    (h1 : mode ≠ "horizontal_center") (h2 : mode ≠ "vertical_center")
    (h3 : mode ≠ "horizontal_distribute") (h4 : mode ≠ "vertical_distribute") :
    alignShapes mode shapes = shapes := by
  rw [alignShapes, if_neg h1, if_neg h2, if_neg h3, if_neg h4, ite_self]

theorem arrangeShapesInOrder_short {ids : List String} {mode : String} {st : List Shape}
    (h : ((resolveOrder st ids).filterMap fun i => st[i]?).length < 2) :
    arrangeShapesInOrder ids mode st = st := by
  simp only [arrangeShapesInOrder]
  rw [if_pos h]

theorem arrangeShapesInOrder_hd {ids : List String} {st : List Shape}
    (h : ¬ ((resolveOrder st ids).filterMap fun i => st[i]?).length < 2) :
    arrangeShapesInOrder ids ("horizontal_distribute") st =
      placeOrdH
        ((slideWidth - 2 * margin -
            totalWidth ((resolveOrder st ids).filterMap fun i => st[i]?)) /
          ((((resolveOrder st ids).filterMap fun i => st[i]?).length : ℚ) - 1))
        (avgCenterY ((resolveOrder st ids).filterMap fun i => st[i]?))
        (resolveOrder st ids) st margin := by
  simp only [arrangeShapesInOrder]
  rw [if_neg h, if_pos trivial]

theorem arrangeShapesInOrder_vd {ids : List String} {st : List Shape}
    (h : ¬ ((resolveOrder st ids).filterMap fun i => st[i]?).length < 2) :
    arrangeShapesInOrder ids ("vertical_distribute") st =
      placeOrdV
        ((slideHeight - 2 * margin -
            totalHeight ((resolveOrder st ids).filterMap fun i => st[i]?)) /
          ((((resolveOrder st ids).filterMap fun i => st[i]?).length : ℚ) - 1))
        (avgCenterX ((resolveOrder st ids).filterMap fun i => st[i]?))
        (resolveOrder st ids) st margin := by
  simp only [arrangeShapesInOrder]
  rw [if_neg h, if_neg (by decide), if_pos trivial]

theorem arrangeShapesInOrder_hc {ids : List String} {st : List Shape}
    (h : ¬ ((resolveOrder st ids).filterMap fun i => st[i]?).length < 2) :
    arrangeShapesInOrder ids ("horizontal_center") st =
      setLeftCenterAll (avgCenterX ((resolveOrder st ids).filterMap fun i => st[i]?))
        (resolveOrder st ids) st := by
  simp only [arrangeShapesInOrder]
  rw [if_neg h, if_neg (by decide), if_neg (by decide), if_pos trivial]

theorem arrangeShapesInOrder_vc {ids : List String} {st : List Shape}
    (h : ¬ ((resolveOrder st ids).filterMap fun i => st[i]?).length < 2) :
    arrangeShapesInOrder ids ("vertical_center") st =
      setTopCenterAll (avgCenterY ((resolveOrder st ids).filterMap fun i => st[i]?))
        (resolveOrder st ids) st := by
  simp only [arrangeShapesInOrder]
  rw [if_neg h, if_neg (by decide), if_neg (by decide), if_neg (by decide), if_pos trivial]

theorem arrangeShapesInOrder_unknown {ids : List String} {mode : String} {st : List Shape}
    (h1 : mode ≠ "horizontal_distribute") (h2 : mode ≠ "vertical_distribute")
    (h3 : mode ≠ "horizontal_center") (h4 : mode ≠ "vertical_center") :
    arrangeShapesInOrder ids mode st = st := by
  simp only [arrangeShapesInOrder]
  rw [if_neg h1, if_neg h2, if_neg h3, if_neg h4, ite_self]

/-- Claim C1, counterexample: on the two shapes `s1 = {left 0, top 0, w 0, h 0}`
and `s2 = {left 2, top 10, w 0, h 0}` the claim predicts that
`horizontal_center` leaves the lefts `[0, 2]` unchanged and moves the tops so
both vertical centers equal their mean `5`; the code instead aligns the
horizontal centers (it sets `left` and never touches `top`), producing
lefts `[1, 1]` and vertical centers `[0, 10]`. -/
theorem alignShapes_horizontal_center_cex :
    ¬ ((alignShapes ("horizontal_center")
          [⟨"s1", 0, 0, 0, 0⟩, ⟨"s2", 2, 10, 0, 0⟩]).map
        (fun s => (s.left, s.top + s.height / 2)) =
      [(0, 5), (2, 5)]) := by
  have hn : ¬ ([⟨"s1", 0, 0, 0, 0⟩, ⟨"s2", 2, 10, 0, 0⟩] : List Shape).length < 2 := by
    simp
  rw [alignShapes_hc hn]
  norm_num [avgCenterX, sumCenterX]

/-- Claim C1 (amended): for every list of at least 2 shapes, `applyAlignment`
(`alignShapes`) with mode `horizontal_center` sets each shape's left so that
its horizontal center (`left + width / 2`) equals the arithmetic mean of all
shapes' horizontal centers, and leaves every shape's top, width, and height
unchanged (vertical position untouched). -/
theorem alignShapes_horizontal_center_spec (shapes : List Shape)
    (h2 : 2 ≤ shapes.length) :
    (alignShapes ("horizontal_center") shapes).length = shapes.length ∧
    ∀ i : ℕ, i < shapes.length →
      leftAt (alignShapes ("horizontal_center") shapes) i + widthAt shapes i / 2 =
        meanCenterX shapes ∧
      topAt (alignShapes ("horizontal_center") shapes) i = topAt shapes i ∧
      widthAt (alignShapes ("horizontal_center") shapes) i = widthAt shapes i ∧
      heightAt (alignShapes ("horizontal_center") shapes) i = heightAt shapes i := by
  have hn : ¬ shapes.length < 2 := by omega
  rw [alignShapes_hc hn]
  refine ⟨by simp, ?_⟩
  intro i hi
  have hs : shapes[i]? = some shapes[i] := List.getElem?_eq_getElem hi
  refine ⟨?_, ?_, ?_, ?_⟩
  · simp [leftAt, widthAt, List.getElem?_map, hs, avgCenterX_eq_mean]
  · simp [topAt, List.getElem?_map, hs]
  · simp [widthAt, List.getElem?_map, hs]
  · simp [heightAt, List.getElem?_map, hs]

/-- Witness for the amended claim C1 at a concrete two-shape input. -/
theorem alignShapes_horizontal_center_spec_witness :
    2 ≤ ([⟨"a", 0, 0, 0, 0⟩, ⟨"b", 2, 10, 0, 0⟩] : List Shape).length ∧
    ((alignShapes ("horizontal_center") [⟨"a", 0, 0, 0, 0⟩, ⟨"b", 2, 10, 0, 0⟩]).length =
        ([⟨"a", 0, 0, 0, 0⟩, ⟨"b", 2, 10, 0, 0⟩] : List Shape).length ∧
      ∀ i : ℕ, i < ([⟨"a", 0, 0, 0, 0⟩, ⟨"b", 2, 10, 0, 0⟩] : List Shape).length →
        leftAt (alignShapes ("horizontal_center") [⟨"a", 0, 0, 0, 0⟩, ⟨"b", 2, 10, 0, 0⟩]) i +
            widthAt [⟨"a", 0, 0, 0, 0⟩, ⟨"b", 2, 10, 0, 0⟩] i / 2 =
          meanCenterX [⟨"a", 0, 0, 0, 0⟩, ⟨"b", 2, 10, 0, 0⟩] ∧
        topAt (alignShapes ("horizontal_center") [⟨"a", 0, 0, 0, 0⟩, ⟨"b", 2, 10, 0, 0⟩]) i =
          topAt [⟨"a", 0, 0, 0, 0⟩, ⟨"b", 2, 10, 0, 0⟩] i ∧
        widthAt (alignShapes ("horizontal_center") [⟨"a", 0, 0, 0, 0⟩, ⟨"b", 2, 10, 0, 0⟩]) i =
          widthAt [⟨"a", 0, 0, 0, 0⟩, ⟨"b", 2, 10, 0, 0⟩] i ∧
        heightAt (alignShapes ("horizontal_center") [⟨"a", 0, 0, 0, 0⟩, ⟨"b", 2, 10, 0, 0⟩]) i =
          heightAt [⟨"a", 0, 0, 0, 0⟩, ⟨"b", 2, 10, 0, 0⟩] i) :=
  ⟨by simp, alignShapes_horizontal_center_spec _ (by simp)⟩

/-- The behaviour claimed for the unordered `horizontal_distribute`: the
placement order is a stably-sorted-by-left permutation of all positions, the
first sorted shape lands at left 40, each subsequent left is the previous
left plus the previous width plus the gap
`(960 - 2*40 - Σwidths) / (count - 1)`, and tops, widths and heights are
untouched. -/
def horizontalDistributeSpec (shapes : List Shape) : Prop :=
  (sortIdxByLeft shapes).Perm (List.range shapes.length) ∧
  ((sortIdxByLeft shapes).Pairwise fun i j =>
    leftAt shapes i < leftAt shapes j ∨ (leftAt shapes i = leftAt shapes j ∧ i < j)) ∧
  (alignShapes ("horizontal_distribute") shapes).length = shapes.length ∧
  (∀ i : ℕ,
    topAt (alignShapes ("horizontal_distribute") shapes) i = topAt shapes i ∧
    widthAt (alignShapes ("horizontal_distribute") shapes) i = widthAt shapes i ∧
    heightAt (alignShapes ("horizontal_distribute") shapes) i = heightAt shapes i) ∧
  (∀ a : ℕ, (sortIdxByLeft shapes)[0]? = some a →
    leftAt (alignShapes ("horizontal_distribute") shapes) a = 40) ∧
  (∀ k a b : ℕ, (sortIdxByLeft shapes)[k]? = some a →
    (sortIdxByLeft shapes)[k + 1]? = some b →
    leftAt (alignShapes ("horizontal_distribute") shapes) b =
      leftAt (alignShapes ("horizontal_distribute") shapes) a + widthAt shapes a +
        (960 - 2 * 40 - (shapes.map Shape.width).sum) / ((shapes.length : ℚ) - 1))

/-- Claim C2: for every list of at least 2 shapes, `applyAlignment`
(`alignShapes`) with mode `horizontal_distribute` sorts the shapes by their
current left edge ascending (stable tie-break), places the first sorted shape
at left = margin (40), and sets each subsequent shape's left to the previous
shape's left + previous width + gap, where
`gap = (960 - 2*40 - Σwidths) / (count - 1)`; the gap may be negative with no
clamping, and no shape's width (nor top nor height) is changed. -/
theorem alignShapes_horizontal_distribute_holds (shapes : List Shape)
    (h2 : 2 ≤ shapes.length) : horizontalDistributeSpec shapes := by
  have hn : ¬ shapes.length < 2 := by omega
  unfold horizontalDistributeSpec
  rw [alignShapes_hd hn]
  set G := (slideWidth - 2 * margin - totalWidth shapes) / ((shapes.length : ℚ) - 1) with hG
  have hb : ∀ i ∈ sortIdxByLeft shapes, i < shapes.length := fun i hi =>
    sortIdxByLeft_mem_lt hi
  have hN := sortIdxByLeft_nodup shapes
  refine ⟨sortIdxByLeft_perm shapes, sortIdxByLeft_pairwise_strict shapes,
    placeH_length G (sortIdxByLeft shapes) shapes margin, ?_, ?_, ?_⟩
  · intro i
    obtain ⟨h1, h2w, h3, _⟩ := placeH_fields G (sortIdxByLeft shapes) shapes margin i
    refine ⟨?_, ?_, ?_⟩
    · unfold topAt
      rw [h1]
    · unfold widthAt
      rw [h2w]
    · unfold heightAt
      rw [h3]
  · intro a ha
    have hamem : a ∈ sortIdxByLeft shapes := by
      obtain ⟨hk, he⟩ := List.getElem?_eq_some.mp ha
      exact he ▸ List.getElem_mem hk
    have halt : a < shapes.length := sortIdxByLeft_mem_lt hamem
    have hpos := placeH_getElem?_pos G (sortIdxByLeft shapes) shapes margin hN hb 0 a ha
    unfold leftAt
    rw [hpos, accLeftFrom_zero, List.getElem?_eq_getElem halt]
    norm_num [margin]
  · intro k a b ha hb'
    have hamem : a ∈ sortIdxByLeft shapes := by
      obtain ⟨hk, he⟩ := List.getElem?_eq_some.mp ha
      exact he ▸ List.getElem_mem hk
    have hbmem : b ∈ sortIdxByLeft shapes := by
      obtain ⟨hk, he⟩ := List.getElem?_eq_some.mp hb'
      exact he ▸ List.getElem_mem hk
    have halt : a < shapes.length := sortIdxByLeft_mem_lt hamem
    have hblt : b < shapes.length := sortIdxByLeft_mem_lt hbmem
    have hposa := placeH_getElem?_pos G (sortIdxByLeft shapes) shapes margin hN hb k a ha
    have hposb := placeH_getElem?_pos G (sortIdxByLeft shapes) shapes margin hN hb (k + 1) b hb'
    unfold leftAt
    rw [hposa, hposb, List.getElem?_eq_getElem halt, List.getElem?_eq_getElem hblt]
    have hsucc := accLeftFrom_succ shapes G (sortIdxByLeft shapes) margin k a ha
    have hwa : widthAt shapes a = shapes[a].width := by
      unfold widthAt
      rw [List.getElem?_eq_getElem halt]
      rfl
    simp only [Option.map_some', Option.getD_some]
    rw [hsucc, hG]
    rw [totalWidth_eq, hwa]
    norm_num [slideWidth, margin]

/-- Witness for claim C2 at a concrete two-shape input. -/
theorem alignShapes_horizontal_distribute_holds_witness :
    2 ≤ ([⟨"a", 0, 0, 10, 10⟩, ⟨"b", 5, 0, 10, 10⟩] : List Shape).length ∧
    horizontalDistributeSpec [⟨"a", 0, 0, 10, 10⟩, ⟨"b", 5, 0, 10, 10⟩] :=
  ⟨by simp, alignShapes_horizontal_distribute_holds _ (by simp)⟩

/-- Claim C9: for every list of at least 2 shapes, applying `alignShapes`
with mode `horizontal_center` twice in a row yields exactly the same shape
positions as applying it once (idempotence). -/
theorem alignShapes_horizontal_center_idem (shapes : List Shape)
    (h2 : 2 ≤ shapes.length) :
    alignShapes ("horizontal_center") (alignShapes ("horizontal_center") shapes) =
      alignShapes ("horizontal_center") shapes := by
  have hn : ¬ shapes.length < 2 := by omega
  rw [alignShapes_hc hn]
  have hlen : (shapes.map fun s =>
      ({ s with left := avgCenterX shapes - s.width / 2 } : Shape)).length =
      shapes.length := by
    simp
  have hn' : ¬ (shapes.map fun s =>
      ({ s with left := avgCenterX shapes - s.width / 2 } : Shape)).length < 2 := by
    rw [hlen]
    exact hn
  rw [alignShapes_hc hn']
  have hnz : ((shapes.length : ℚ)) ≠ 0 := by
    have hpos : (0 : ℚ) < (shapes.length : ℚ) := by
      exact_mod_cast lt_of_lt_of_le (by norm_num) h2
    exact ne_of_gt hpos
  have havg : avgCenterX (shapes.map fun s =>
      ({ s with left := avgCenterX shapes - s.width / 2 } : Shape)) = avgCenterX shapes := by
    rw [avgCenterX, sumCenterX_eq, List.map_map]
    have hmap : (shapes.map ((fun s => s.left + s.width / 2) ∘ fun s =>
        ({ s with left := avgCenterX shapes - s.width / 2 } : Shape))) =
        shapes.map fun _ => avgCenterX shapes := by
      apply List.map_congr_left
      intro s _
      simp
    rw [hmap, List.map_const', List.sum_replicate, nsmul_eq_mul, List.length_map]
    exact mul_div_cancel_left₀ _ hnz
  rw [List.map_map]
  apply List.map_congr_left
  intro s _
  simp [Function.comp, havg]

/-- Witness for claim C9 at a concrete two-shape input. -/
theorem alignShapes_horizontal_center_idem_witness :
    2 ≤ ([⟨"a", 0, 0, 4, 4⟩, ⟨"b", 6, 2, 4, 4⟩] : List Shape).length ∧
    alignShapes ("horizontal_center")
        (alignShapes ("horizontal_center") [⟨"a", 0, 0, 4, 4⟩, ⟨"b", 6, 2, 4, 4⟩]) =
      alignShapes ("horizontal_center") [⟨"a", 0, 0, 4, 4⟩, ⟨"b", 6, 2, 4, 4⟩] :=
  ⟨by simp, alignShapes_horizontal_center_idem _ (by simp)⟩

/-- Claim C10: for every list of at least 2 shapes, the unordered
`alignShapes` with mode `horizontal_distribute` mutates only the `left`
fields — every shape's top, width, and height (and the list length) are
unchanged, with no cross-axis vertical centering — and symmetrically
`vertical_distribute` mutates only the `top` fields, leaving left, width,
and height unchanged. -/
theorem alignShapes_distribute_frame (shapes : List Shape) (h2 : 2 ≤ shapes.length) :
    ((alignShapes ("horizontal_distribute") shapes).length = shapes.length ∧
      ∀ i : ℕ,
        topAt (alignShapes ("horizontal_distribute") shapes) i = topAt shapes i ∧
        widthAt (alignShapes ("horizontal_distribute") shapes) i = widthAt shapes i ∧
        heightAt (alignShapes ("horizontal_distribute") shapes) i = heightAt shapes i) ∧
    ((alignShapes ("vertical_distribute") shapes).length = shapes.length ∧
      ∀ i : ℕ,
        leftAt (alignShapes ("vertical_distribute") shapes) i = leftAt shapes i ∧
        widthAt (alignShapes ("vertical_distribute") shapes) i = widthAt shapes i ∧
        heightAt (alignShapes ("vertical_distribute") shapes) i = heightAt shapes i) := by
  have hn : ¬ shapes.length < 2 := by omega
  constructor
  · rw [alignShapes_hd hn]
    refine ⟨placeH_length _ _ _ _, ?_⟩
    intro i
    obtain ⟨h1, h2w, h3, _⟩ := placeH_fields
      ((slideWidth - 2 * margin - totalWidth shapes) / ((shapes.length : ℚ) - 1))
      (sortIdxByLeft shapes) shapes margin i
    refine ⟨?_, ?_, ?_⟩
    · unfold topAt
      rw [h1]
    · unfold widthAt
      rw [h2w]
    · unfold heightAt
      rw [h3]
  · rw [alignShapes_vd hn]
    refine ⟨placeV_length _ _ _ _, ?_⟩
    intro i
    obtain ⟨h1, h2w, h3, _⟩ := placeV_fields
      ((slideHeight - 2 * margin - totalHeight shapes) / ((shapes.length : ℚ) - 1))
      (sortIdxByTop shapes) shapes margin i
    refine ⟨?_, ?_, ?_⟩
    · unfold leftAt
      rw [h1]
    · unfold widthAt
      rw [h2w]
    · unfold heightAt
      rw [h3]

/-- Witness for claim C10 at a concrete two-shape input. -/
theorem alignShapes_distribute_frame_witness :
    2 ≤ ([⟨"a", 0, 1, 10, 20⟩, ⟨"b", 5, 9, 10, 20⟩] : List Shape).length ∧
    (((alignShapes ("horizontal_distribute") [⟨"a", 0, 1, 10, 20⟩, ⟨"b", 5, 9, 10, 20⟩]).length =
        ([⟨"a", 0, 1, 10, 20⟩, ⟨"b", 5, 9, 10, 20⟩] : List Shape).length ∧
      ∀ i : ℕ,
        topAt (alignShapes ("horizontal_distribute") [⟨"a", 0, 1, 10, 20⟩, ⟨"b", 5, 9, 10, 20⟩]) i =
          topAt [⟨"a", 0, 1, 10, 20⟩, ⟨"b", 5, 9, 10, 20⟩] i ∧
        widthAt (alignShapes ("horizontal_distribute") [⟨"a", 0, 1, 10, 20⟩, ⟨"b", 5, 9, 10, 20⟩]) i =
          widthAt [⟨"a", 0, 1, 10, 20⟩, ⟨"b", 5, 9, 10, 20⟩] i ∧
        heightAt (alignShapes ("horizontal_distribute") [⟨"a", 0, 1, 10, 20⟩, ⟨"b", 5, 9, 10, 20⟩]) i =
          heightAt [⟨"a", 0, 1, 10, 20⟩, ⟨"b", 5, 9, 10, 20⟩] i) ∧
      ((alignShapes ("vertical_distribute") [⟨"a", 0, 1, 10, 20⟩, ⟨"b", 5, 9, 10, 20⟩]).length =
        ([⟨"a", 0, 1, 10, 20⟩, ⟨"b", 5, 9, 10, 20⟩] : List Shape).length ∧
      ∀ i : ℕ,
        leftAt (alignShapes ("vertical_distribute") [⟨"a", 0, 1, 10, 20⟩, ⟨"b", 5, 9, 10, 20⟩]) i =
          leftAt [⟨"a", 0, 1, 10, 20⟩, ⟨"b", 5, 9, 10, 20⟩] i ∧
        widthAt (alignShapes ("vertical_distribute") [⟨"a", 0, 1, 10, 20⟩, ⟨"b", 5, 9, 10, 20⟩]) i =
          widthAt [⟨"a", 0, 1, 10, 20⟩, ⟨"b", 5, 9, 10, 20⟩] i ∧
        heightAt (alignShapes ("vertical_distribute") [⟨"a", 0, 1, 10, 20⟩, ⟨"b", 5, 9, 10, 20⟩]) i =
          heightAt [⟨"a", 0, 1, 10, 20⟩, ⟨"b", 5, 9, 10, 20⟩] i)) :=
  ⟨by simp, alignShapes_distribute_frame _ (by simp)⟩

/-- Claim C3, counterexample: for shapes A{500,0,50,50}, B{10,0,50,50},
C{250,0,50,50} with order [A, B, C] and `horizontal_distribute`, the final
lefts are not approximately A:40, B:430, C:820 as the claim states — the code
places B at 455 and C at 870 (off by 25 and 50, beyond any floating-point
tolerance), since each step advances by previous width + gap = 50 + 365. -/
theorem arrangeShapesInOrder_example_cex :
    ¬ ((arrangeShapesInOrder (["A", "B", "C"]) ("horizontal_distribute")
          [⟨"A", 500, 0, 50, 50⟩, ⟨"B", 10, 0, 50, 50⟩, ⟨"C", 250, 0, 50, 50⟩]).map
        Shape.left = [40, 430, 820]) := by
  have h0 : resolveOrder
      [⟨"A", 500, 0, 50, 50⟩, ⟨"B", 10, 0, 50, 50⟩, ⟨"C", 250, 0, 50, 50⟩]
      ["A", "B", "C"] = [0, 1, 2] := by decide
  rw [arrangeShapesInOrder, h0]
  norm_num [placeOrdH, avgCenterY, sumCenterY, totalWidth, slideWidth, margin,
    List.filterMap_cons, List.getElem?_cons_zero, List.getElem?_cons_succ]

/-- Claim C3 (amended): for the same input the code produces the final lefts
exactly A:40, B:455, C:870, with gap = (880 - 150) / 2 = 365 (each later left
is the previous left + previous width 50 + gap 365). -/
theorem arrangeShapesInOrder_example_amended :
    (arrangeShapesInOrder (["A", "B", "C"]) ("horizontal_distribute")
        [⟨"A", 500, 0, 50, 50⟩, ⟨"B", 10, 0, 50, 50⟩, ⟨"C", 250, 0, 50, 50⟩]).map
      Shape.left = [40, 455, 870] ∧
    (slideWidth - 2 * margin -
        totalWidth [⟨"A", 500, 0, 50, 50⟩, ⟨"B", 10, 0, 50, 50⟩, ⟨"C", 250, 0, 50, 50⟩]) /
      ((3 : ℚ) - 1) = 365 := by
  constructor
  · have h0 : resolveOrder
        [⟨"A", 500, 0, 50, 50⟩, ⟨"B", 10, 0, 50, 50⟩, ⟨"C", 250, 0, 50, 50⟩]
        ["A", "B", "C"] = [0, 1, 2] := by decide
    rw [arrangeShapesInOrder, h0]
    norm_num [placeOrdH, avgCenterY, sumCenterY, totalWidth, slideWidth, margin,
      List.filterMap_cons, List.getElem?_cons_zero, List.getElem?_cons_succ]
  · norm_num [totalWidth, slideWidth, margin]

theorem accLeftFrom_lt (st : List Shape) (gap cur : ℚ) (idxs : List ℕ)
    (hstep : ∀ (j i : ℕ), idxs[j]? = some i → 0 < widthAt st i + gap) :
    ∀ m k : ℕ, k < m → m < idxs.length →
      accLeftFrom st gap cur idxs k < accLeftFrom st gap cur idxs m := by
  intro m
  induction m with
  | zero =>
    intro k hk _
    exact absurd hk (Nat.not_lt_zero k)
  | succ m ih =>
    intro k hk hm
    have hmlt : m < idxs.length := by omega
    obtain ⟨i, hi⟩ : ∃ i, idxs[m]? = some i := ⟨idxs[m], List.getElem?_eq_getElem hmlt⟩
    have hpos := hstep m i hi
    have hsucc := accLeftFrom_succ st gap idxs cur m i hi
    have hcase : k < m ∨ k = m := by omega
    rcases hcase with h | h
    · exact lt_trans (ih k h hmlt) (by rw [hsucc]; linarith)
    · subst h
      rw [hsucc]
      linarith

/-- Claim C4, counterexample: with two shapes of width 1000 each (total width
2000 > 880) and order ["a", "b"], the gap is (880 - 2000) / 1 = -1120, so the
second shape in the order ends at left 40 + 1000 - 1120 = -80, strictly to
the LEFT of the first one (left 40): the order list does not determine the
left-to-right sequence regardless of geometry. -/
theorem arrangeShapesInOrder_order_cex :
    leftAt (arrangeShapesInOrder (["a", "b"]) ("horizontal_distribute")
        [⟨"a", 0, 0, 1000, 50⟩, ⟨"b", 0, 0, 1000, 50⟩]) 1 <
      leftAt (arrangeShapesInOrder (["a", "b"]) ("horizontal_distribute")
        [⟨"a", 0, 0, 1000, 50⟩, ⟨"b", 0, 0, 1000, 50⟩]) 0 := by
  have h0 : resolveOrder [⟨"a", 0, 0, 1000, 50⟩, ⟨"b", 0, 0, 1000, 50⟩]
      ["a", "b"] = [0, 1] := by decide
  rw [arrangeShapesInOrder, h0]
  norm_num [leftAt, placeOrdH, avgCenterY, sumCenterY, totalWidth, slideWidth, margin,
    List.filterMap_cons, List.getElem?_cons_zero, List.getElem?_cons_succ]

/-- Claim C4 (amended): when the resolved identifiers are distinct, every
resolved shape has positive width, and the total resolved width is at most
the available width 960 - 2*40 (so the gap is nonnegative),
`arrangeShapesInOrder` with `horizontal_distribute` places the shapes
strictly left-to-right in exactly the sequence given by the order list,
regardless of their original left positions (for any two order positions
k < m, the shape resolved at k ends strictly left of the one at m). -/
theorem arrangeShapesInOrder_places_in_order (ids : List String) (st : List Shape)
    (hN : (resolveOrder st ids).Nodup)
    (h2 : 2 ≤ ((resolveOrder st ids).filterMap fun i => st[i]?).length)
    (hw : ∀ s ∈ (resolveOrder st ids).filterMap fun i => st[i]?, 0 < s.width)
    (hsum : (((resolveOrder st ids).filterMap fun i => st[i]?).map Shape.width).sum ≤
      960 - 2 * 40) :
    ∀ k m a b : ℕ, k < m → (resolveOrder st ids)[k]? = some a →
      (resolveOrder st ids)[m]? = some b →
      leftAt (arrangeShapesInOrder ids ("horizontal_distribute") st) a <
        leftAt (arrangeShapesInOrder ids ("horizontal_distribute") st) b := by
  have hn : ¬ ((resolveOrder st ids).filterMap fun i => st[i]?).length < 2 := by omega
  rw [arrangeShapesInOrder_hd hn]
  have hb : ∀ i ∈ resolveOrder st ids, i < st.length := fun i hi => resolveOrder_lt hi
  have hlen2 : (2 : ℚ) ≤ ((((resolveOrder st ids).filterMap fun i => st[i]?).length : ℕ) : ℚ) := by
    exact_mod_cast h2
  have hGnn : 0 ≤ (slideWidth - 2 * margin -
      totalWidth ((resolveOrder st ids).filterMap fun i => st[i]?)) /
      (((((resolveOrder st ids).filterMap fun i => st[i]?).length : ℕ) : ℚ) - 1) := by
    apply div_nonneg
    · rw [totalWidth_eq]
      have hs := hsum
      norm_num [slideWidth, margin]
      linarith
    · linarith
  have hstep : ∀ j i : ℕ, (resolveOrder st ids)[j]? = some i →
      0 < widthAt st i +
        (slideWidth - 2 * margin -
            totalWidth ((resolveOrder st ids).filterMap fun i => st[i]?)) /
          (((((resolveOrder st ids).filterMap fun i => st[i]?).length : ℕ) : ℚ) - 1) := by
    intro j i hj
    have him : i ∈ resolveOrder st ids := by
      obtain ⟨hk, he⟩ := List.getElem?_eq_some.mp hj
      exact he ▸ List.getElem_mem hk
    have hlt : i < st.length := hb i him
    obtain ⟨s, hs⟩ : ∃ s, st[i]? = some s := ⟨st[i], List.getElem?_eq_getElem hlt⟩
    have hmem : s ∈ (resolveOrder st ids).filterMap fun i => st[i]? :=
      List.mem_filterMap.mpr ⟨i, him, hs⟩
    have hwi : widthAt st i = s.width := by
      unfold widthAt
      rw [hs]
      rfl
    rw [hwi]
    have hws := hw s hmem
    linarith
  intro k m a b hkm ha hb'
  have hamem : a ∈ resolveOrder st ids := by
    obtain ⟨hk, he⟩ := List.getElem?_eq_some.mp ha
    exact he ▸ List.getElem_mem hk
  have hbmem : b ∈ resolveOrder st ids := by
    obtain ⟨hk, he⟩ := List.getElem?_eq_some.mp hb'
    exact he ▸ List.getElem_mem hk
  have halt : a < st.length := hb a hamem
  have hblt : b < st.length := hb b hbmem
  have hposa := placeOrdH_getElem?_pos
    ((slideWidth - 2 * margin -
        totalWidth ((resolveOrder st ids).filterMap fun i => st[i]?)) /
      (((((resolveOrder st ids).filterMap fun i => st[i]?).length : ℕ) : ℚ) - 1))
    (avgCenterY ((resolveOrder st ids).filterMap fun i => st[i]?))
    (resolveOrder st ids) st margin hN hb k a ha
  have hposb := placeOrdH_getElem?_pos
    ((slideWidth - 2 * margin -
        totalWidth ((resolveOrder st ids).filterMap fun i => st[i]?)) /
      (((((resolveOrder st ids).filterMap fun i => st[i]?).length : ℕ) : ℚ) - 1))
    (avgCenterY ((resolveOrder st ids).filterMap fun i => st[i]?))
    (resolveOrder st ids) st margin hN hb m b hb'
  unfold leftAt
  rw [hposa, hposb, List.getElem?_eq_getElem halt, List.getElem?_eq_getElem hblt]
  simp only [Option.map_some', Option.getD_some]
  have hmltlen : m < (resolveOrder st ids).length := (List.getElem?_eq_some.mp hb').1
  exact accLeftFrom_lt st _ margin (resolveOrder st ids) hstep m k hkm hmltlen

/-- Witness for the amended claim C4: order ["c", "a", "b"] on three shapes
whose original lefts are scrambled. -/
theorem arrangeShapesInOrder_places_in_order_witness :
    (resolveOrder [⟨"c", 100, 0, 10, 10⟩, ⟨"a", 0, 0, 10, 10⟩, ⟨"b", 50, 0, 10, 10⟩]
      ["c", "a", "b"]).Nodup ∧
    2 ≤ ((resolveOrder [⟨"c", 100, 0, 10, 10⟩, ⟨"a", 0, 0, 10, 10⟩, ⟨"b", 50, 0, 10, 10⟩]
        ["c", "a", "b"]).filterMap fun i =>
        ([⟨"c", 100, 0, 10, 10⟩, ⟨"a", 0, 0, 10, 10⟩, ⟨"b", 50, 0, 10, 10⟩] : List Shape)[i]?).length ∧
    (∀ s ∈ (resolveOrder [⟨"c", 100, 0, 10, 10⟩, ⟨"a", 0, 0, 10, 10⟩, ⟨"b", 50, 0, 10, 10⟩]
        ["c", "a", "b"]).filterMap fun i =>
        ([⟨"c", 100, 0, 10, 10⟩, ⟨"a", 0, 0, 10, 10⟩, ⟨"b", 50, 0, 10, 10⟩] : List Shape)[i]?,
      0 < s.width) ∧
    (((resolveOrder [⟨"c", 100, 0, 10, 10⟩, ⟨"a", 0, 0, 10, 10⟩, ⟨"b", 50, 0, 10, 10⟩]
          ["c", "a", "b"]).filterMap fun i =>
          ([⟨"c", 100, 0, 10, 10⟩, ⟨"a", 0, 0, 10, 10⟩, ⟨"b", 50, 0, 10, 10⟩] : List Shape)[i]?).map
        Shape.width).sum ≤ 960 - 2 * 40 ∧
    ∀ k m a b : ℕ, k < m →
      (resolveOrder [⟨"c", 100, 0, 10, 10⟩, ⟨"a", 0, 0, 10, 10⟩, ⟨"b", 50, 0, 10, 10⟩]
        ["c", "a", "b"])[k]? = some a →
      (resolveOrder [⟨"c", 100, 0, 10, 10⟩, ⟨"a", 0, 0, 10, 10⟩, ⟨"b", 50, 0, 10, 10⟩]
        ["c", "a", "b"])[m]? = some b →
      leftAt (arrangeShapesInOrder (["c", "a", "b"]) ("horizontal_distribute")
          [⟨"c", 100, 0, 10, 10⟩, ⟨"a", 0, 0, 10, 10⟩, ⟨"b", 50, 0, 10, 10⟩]) a <
        leftAt (arrangeShapesInOrder (["c", "a", "b"]) ("horizontal_distribute")
          [⟨"c", 100, 0, 10, 10⟩, ⟨"a", 0, 0, 10, 10⟩, ⟨"b", 50, 0, 10, 10⟩]) b := by
  have h0 : resolveOrder [⟨"c", 100, 0, 10, 10⟩, ⟨"a", 0, 0, 10, 10⟩, ⟨"b", 50, 0, 10, 10⟩]
      ["c", "a", "b"] = [0, 1, 2] := by decide
  refine ⟨by decide, by decide, ?_, ?_,
    arrangeShapesInOrder_places_in_order _ _ (by decide) (by decide) ?_ ?_⟩
  · intro s hs
    rw [h0] at hs
    simp only [List.filterMap_cons, List.getElem?_cons_zero, List.getElem?_cons_succ,
      List.filterMap_nil] at hs
    simp only [List.mem_cons, List.not_mem_nil, or_false] at hs
    rcases hs with rfl | rfl | rfl <;> norm_num
  · rw [h0]
    norm_num [List.filterMap_cons, List.getElem?_cons_zero, List.getElem?_cons_succ]
  · intro s hs
    rw [h0] at hs
    simp only [List.filterMap_cons, List.getElem?_cons_zero, List.getElem?_cons_succ,
      List.filterMap_nil] at hs
    simp only [List.mem_cons, List.not_mem_nil, or_false] at hs
    rcases hs with rfl | rfl | rfl <;> norm_num
  · rw [h0]
    norm_num [List.filterMap_cons, List.getElem?_cons_zero, List.getElem?_cons_succ]

/-- Claim C5: for every order list resolving to at least 2 shapes,
`arrangeShapesInOrder` with `horizontal_distribute` additionally sets every
placed shape's top so that its vertical center (`top + height / 2`, with the
height unchanged from before the call) equals the mean of the pre-call
vertical centers of the whole resolved ordered set, and `vertical_distribute`
symmetrically sets every placed shape's left so its horizontal center equals
the mean pre-call horizontal center. -/
theorem arrangeShapesInOrder_cross_axis (ids : List String) (st : List Shape)
    (h2 : 2 ≤ ((resolveOrder st ids).filterMap fun i => st[i]?).length) :
    (∀ i ∈ resolveOrder st ids,
      topAt (arrangeShapesInOrder ids ("horizontal_distribute") st) i +
        heightAt st i / 2 =
        meanCenterY ((resolveOrder st ids).filterMap fun i => st[i]?)) ∧
    (∀ i ∈ resolveOrder st ids,
      leftAt (arrangeShapesInOrder ids ("vertical_distribute") st) i +
        widthAt st i / 2 =
        meanCenterX ((resolveOrder st ids).filterMap fun i => st[i]?)) := by
  have hn : ¬ ((resolveOrder st ids).filterMap fun i => st[i]?).length < 2 := by omega
  constructor
  · intro i hi
    rw [arrangeShapesInOrder_hd hn]
    have hlt : i < st.length := resolveOrder_lt hi
    obtain ⟨s, hs⟩ : ∃ s, st[i]? = some s := ⟨st[i], List.getElem?_eq_getElem hlt⟩
    have htop := placeOrdH_top_mem
      ((slideWidth - 2 * margin -
          totalWidth ((resolveOrder st ids).filterMap fun i => st[i]?)) /
        ((((resolveOrder st ids).filterMap fun i => st[i]?).length : ℚ) - 1))
      (avgCenterY ((resolveOrder st ids).filterMap fun i => st[i]?))
      (resolveOrder st ids) st margin hi
    unfold topAt heightAt
    rw [htop, hs]
    simp only [Option.map_some', Option.getD_some]
    rw [avgCenterY_eq_mean]
    ring
  · intro i hi
    rw [arrangeShapesInOrder_vd hn]
    have hlt : i < st.length := resolveOrder_lt hi
    obtain ⟨s, hs⟩ : ∃ s, st[i]? = some s := ⟨st[i], List.getElem?_eq_getElem hlt⟩
    have hleft := placeOrdV_left_mem
      ((slideHeight - 2 * margin -
          totalHeight ((resolveOrder st ids).filterMap fun i => st[i]?)) /
        ((((resolveOrder st ids).filterMap fun i => st[i]?).length : ℚ) - 1))
      (avgCenterX ((resolveOrder st ids).filterMap fun i => st[i]?))
      (resolveOrder st ids) st margin hi
    unfold leftAt widthAt
    rw [hleft, hs]
    simp only [Option.map_some', Option.getD_some]
    rw [avgCenterX_eq_mean]
    ring

/-- Witness for claim C5 at a concrete two-shape input with distinct centers. -/
theorem arrangeShapesInOrder_cross_axis_witness :
    2 ≤ ((resolveOrder [⟨"a", 0, 0, 10, 10⟩, ⟨"b", 100, 40, 20, 30⟩] ["b", "a"]).filterMap
      fun i => ([⟨"a", 0, 0, 10, 10⟩, ⟨"b", 100, 40, 20, 30⟩] : List Shape)[i]?).length ∧
    ((∀ i ∈ resolveOrder [⟨"a", 0, 0, 10, 10⟩, ⟨"b", 100, 40, 20, 30⟩] ["b", "a"],
      topAt (arrangeShapesInOrder (["b", "a"]) ("horizontal_distribute")
          [⟨"a", 0, 0, 10, 10⟩, ⟨"b", 100, 40, 20, 30⟩]) i +
        heightAt [⟨"a", 0, 0, 10, 10⟩, ⟨"b", 100, 40, 20, 30⟩] i / 2 =
        meanCenterY ((resolveOrder [⟨"a", 0, 0, 10, 10⟩, ⟨"b", 100, 40, 20, 30⟩]
            ["b", "a"]).filterMap
          fun i => ([⟨"a", 0, 0, 10, 10⟩, ⟨"b", 100, 40, 20, 30⟩] : List Shape)[i]?)) ∧
    (∀ i ∈ resolveOrder [⟨"a", 0, 0, 10, 10⟩, ⟨"b", 100, 40, 20, 30⟩] ["b", "a"],
      leftAt (arrangeShapesInOrder (["b", "a"]) ("vertical_distribute")
          [⟨"a", 0, 0, 10, 10⟩, ⟨"b", 100, 40, 20, 30⟩]) i +
        widthAt [⟨"a", 0, 0, 10, 10⟩, ⟨"b", 100, 40, 20, 30⟩] i / 2 =
        meanCenterX ((resolveOrder [⟨"a", 0, 0, 10, 10⟩, ⟨"b", 100, 40, 20, 30⟩]
            ["b", "a"]).filterMap
          fun i => ([⟨"a", 0, 0, 10, 10⟩, ⟨"b", 100, 40, 20, 30⟩] : List Shape)[i]?))) :=
  ⟨by decide, arrangeShapesInOrder_cross_axis _ _ (by decide)⟩

/-- Claim C6: whenever the order list resolves to a permutation of all the
slide's (at least 2) shapes, `arrangeShapesInOrder` with `horizontal_center`
or `vertical_center` produces exactly the same final shape list as the
unordered `alignShapes` with the same mode — in particular the result does
not depend on the sequence of the identifiers, which does not appear on the
right-hand sides. -/
theorem arrangeShapesInOrder_center_eq (ids : List String) (st : List Shape)
    (hperm : (resolveOrder st ids).Perm (List.range st.length))
    (h2 : 2 ≤ st.length) :
    arrangeShapesInOrder ids ("horizontal_center") st =
      alignShapes ("horizontal_center") st ∧
    arrangeShapesInOrder ids ("vertical_center") st =
      alignShapes ("vertical_center") st := by
  have hb : ∀ i ∈ resolveOrder st ids, i < st.length := fun i hi => resolveOrder_lt hi
  have hordperm : ((resolveOrder st ids).filterMap fun i => st[i]?).Perm st := by
    have h1 := hperm.filterMap fun i => st[i]?
    rw [filterMap_getElem?_range st] at h1
    exact h1
  have hlen : ((resolveOrder st ids).filterMap fun i => st[i]?).length = st.length :=
    hordperm.length_eq
  have hn : ¬ ((resolveOrder st ids).filterMap fun i => st[i]?).length < 2 := by
    rw [hlen]
    omega
  have hn2 : ¬ st.length < 2 := by omega
  have havgX : avgCenterX ((resolveOrder st ids).filterMap fun i => st[i]?) =
      avgCenterX st := by
    unfold avgCenterX
    rw [sumCenterX_eq, sumCenterX_eq, (hordperm.map _).sum_eq, hlen]
  have havgY : avgCenterY ((resolveOrder st ids).filterMap fun i => st[i]?) =
      avgCenterY st := by
    unfold avgCenterY
    rw [sumCenterY_eq, sumCenterY_eq, (hordperm.map _).sum_eq, hlen]
  constructor
  · rw [arrangeShapesInOrder_hc hn, alignShapes_hc hn2, havgX]
    apply List.ext_getElem?
    intro n
    by_cases hnlt : n < st.length
    · have hmem : n ∈ resolveOrder st ids := hperm.mem_iff.mpr (List.mem_range.mpr hnlt)
      rw [setLeftCenterAll_getElem?_mem _ _ _ hmem, List.getElem?_map]
    · have h1 : st[n]? = none := List.getElem?_eq_none (le_of_not_lt hnlt)
      have hnmem : n ∉ resolveOrder st ids := fun hmem => hnlt (hb n hmem)
      rw [setLeftCenterAll_getElem?_not_mem _ _ _ hnmem, List.getElem?_map, h1]
      rfl
  · rw [arrangeShapesInOrder_vc hn, alignShapes_vc hn2, havgY]
    apply List.ext_getElem?
    intro n
    by_cases hnlt : n < st.length
    · have hmem : n ∈ resolveOrder st ids := hperm.mem_iff.mpr (List.mem_range.mpr hnlt)
      rw [setTopCenterAll_getElem?_mem _ _ _ hmem, List.getElem?_map]
    · have h1 : st[n]? = none := List.getElem?_eq_none (le_of_not_lt hnlt)
      have hnmem : n ∉ resolveOrder st ids := fun hmem => hnlt (hb n hmem)
      rw [setTopCenterAll_getElem?_not_mem _ _ _ hnmem, List.getElem?_map, h1]
      rfl

/-- Witness for claim C6: the order ["b", "a"] resolves to the permutation
[1, 0] of the two shapes. -/
theorem arrangeShapesInOrder_center_eq_witness :
    (resolveOrder [⟨"a", 0, 0, 2, 2⟩, ⟨"b", 8, 8, 2, 2⟩] ["b", "a"]).Perm
      (List.range ([⟨"a", 0, 0, 2, 2⟩, ⟨"b", 8, 8, 2, 2⟩] : List Shape).length) ∧
    2 ≤ ([⟨"a", 0, 0, 2, 2⟩, ⟨"b", 8, 8, 2, 2⟩] : List Shape).length ∧
    (arrangeShapesInOrder (["b", "a"]) ("horizontal_center")
        [⟨"a", 0, 0, 2, 2⟩, ⟨"b", 8, 8, 2, 2⟩] =
      alignShapes ("horizontal_center") [⟨"a", 0, 0, 2, 2⟩, ⟨"b", 8, 8, 2, 2⟩] ∧
    arrangeShapesInOrder (["b", "a"]) ("vertical_center")
        [⟨"a", 0, 0, 2, 2⟩, ⟨"b", 8, 8, 2, 2⟩] =
      alignShapes ("vertical_center") [⟨"a", 0, 0, 2, 2⟩, ⟨"b", 8, 8, 2, 2⟩]) :=
  ⟨by decide, by decide, arrangeShapesInOrder_center_eq _ _ (by decide) (by decide)⟩

/-- Claim C7: whenever the input is insufficient or the mode is unrecognized,
no shape is mutated: `alignShapes` with fewer than 2 shapes returns its input
unchanged, `arrangeShapesInOrder` with fewer than 2 resolved shapes returns
its input unchanged, and either operation with a mode string outside the four
enumerated alignment modes returns its input unchanged. -/
theorem layout_no_mutation_on_error :
    (∀ (mode : String) (shapes : List Shape), shapes.length < 2 →
      alignShapes mode shapes = shapes) ∧
    (∀ (ids : List String) (mode : String) (st : List Shape),
      ((resolveOrder st ids).filterMap fun i => st[i]?).length < 2 →
      arrangeShapesInOrder ids mode st = st) ∧
    (∀ (mode : String) (shapes : List Shape),
      mode ∉ (["horizontal_center", "vertical_center", "horizontal_distribute",
        "vertical_distribute"] : List String) →
      alignShapes mode shapes = shapes) ∧
    (∀ (ids : List String) (mode : String) (st : List Shape),
      mode ∉ (["horizontal_center", "vertical_center", "horizontal_distribute",
        "vertical_distribute"] : List String) →
      arrangeShapesInOrder ids mode st = st) := by
  refine ⟨fun mode shapes h => alignShapes_short h,
    fun ids mode st h => arrangeShapesInOrder_short h,
    fun mode shapes h => ?_, fun ids mode st h => ?_⟩
  · simp only [List.mem_cons, List.not_mem_nil, or_false, not_or] at h
    obtain ⟨h1, h2, h3, h4⟩ := h
    exact alignShapes_unknown h1 h2 h3 h4
  · simp only [List.mem_cons, List.not_mem_nil, or_false, not_or] at h
    obtain ⟨h1, h2, h3, h4⟩ := h
    exact arrangeShapesInOrder_unknown h3 h4 h1 h2

/-- Witness for claim C7: a single shape for the insufficient-input cases and
the unrecognized mode "diagonal" for the unsupported-mode cases. -/
theorem layout_no_mutation_on_error_witness :
    (([⟨"a", 1, 2, 3, 4⟩] : List Shape).length < 2 ∧
      alignShapes ("horizontal_center") [⟨"a", 1, 2, 3, 4⟩] = [⟨"a", 1, 2, 3, 4⟩]) ∧
    (((resolveOrder [⟨"a", 1, 2, 3, 4⟩] ["zzz"]).filterMap fun i =>
        ([⟨"a", 1, 2, 3, 4⟩] : List Shape)[i]?).length < 2 ∧
      arrangeShapesInOrder (["zzz"]) ("horizontal_distribute") [⟨"a", 1, 2, 3, 4⟩] =
        [⟨"a", 1, 2, 3, 4⟩]) ∧
    (("diagonal" : String) ∉ (["horizontal_center", "vertical_center",
        "horizontal_distribute", "vertical_distribute"] : List String) ∧
      alignShapes ("diagonal") [⟨"a", 1, 2, 3, 4⟩, ⟨"b", 5, 6, 7, 8⟩] =
        [⟨"a", 1, 2, 3, 4⟩, ⟨"b", 5, 6, 7, 8⟩]) ∧
    (("diagonal" : String) ∉ (["horizontal_center", "vertical_center",
        "horizontal_distribute", "vertical_distribute"] : List String) ∧
      arrangeShapesInOrder (["a", "b"]) ("diagonal") [⟨"a", 1, 2, 3, 4⟩, ⟨"b", 5, 6, 7, 8⟩] =
        [⟨"a", 1, 2, 3, 4⟩, ⟨"b", 5, 6, 7, 8⟩]) :=
  ⟨⟨by decide, layout_no_mutation_on_error.1 _ _ (by decide)⟩,
    ⟨by decide, layout_no_mutation_on_error.2.1 _ _ _ (by decide)⟩,
    ⟨by decide, layout_no_mutation_on_error.2.2.1 _ _ (by decide)⟩,
    ⟨by decide, layout_no_mutation_on_error.2.2.2 _ _ _ (by decide)⟩⟩

theorem resolveOrder_filter (st : List Shape) (ids : List String) :
    resolveOrder st (ids.filter fun id0 => (mapGet st id0).isSome) =
      resolveOrder st ids := by
  induction ids with
  | nil => rfl
  | cons id0 rest ih =>
    simp only [resolveOrder] at ih ⊢
    rw [List.filter_cons]
    by_cases h : (mapGet st id0).isSome
    · rw [if_pos (by simpa using h)]
      cases hm : mapGet st id0
      · rw [hm] at h
        simp at h
      · simp only [List.filterMap_cons, hm, ih]
    · have hm : mapGet st id0 = none := Option.not_isSome_iff_eq_none.mp h
      rw [if_neg (by simpa using h)]
      simp only [List.filterMap_cons, hm, ih]

/-- Claim C8: `arrangeShapesInOrder` skips order entries matching no shape
(with a console warning, not an abort) and places the remaining resolved
shapes exactly as it would if the order list had contained only the resolving
identifiers in the same relative sequence: the result coincides with the run
on the filtered order list, for every mode. -/
theorem arrangeShapesInOrder_skips_unresolved (ids : List String) (mode : String)
    (st : List Shape) :
    arrangeShapesInOrder ids mode st =
      arrangeShapesInOrder (ids.filter fun id0 => (mapGet st id0).isSome) mode st := by
  simp only [arrangeShapesInOrder, resolveOrder_filter]

end Crunched
